import Mathlib

/-!
Shallow embedding of the text-structuring engine of `app.py`
(PDF-to-Excel converter): line classification, whitespace-based table
pattern detection, per-page structuring, and document consolidation.

Strings are modelled as `List Char`; Python string primitives
(`strip`, `split`, `re.split`, `re.search`, `re.match`, `isupper`,
`startswith`) are modelled for the ASCII character ranges the heuristics
use.
-/

set_option maxRecDepth 16384

namespace PdfExcel

/-- Python whitespace test for the ASCII whitespace characters:
space, tab, newline, carriage return, vertical tab, form feed. -/
def pyIsSpace (c : Char) : Bool :=
  c = ' ' || c = '\t' || c = '\n' || c = '\r' || c = '\x0b' || c = '\x0c'

/-- Python `str.strip()`: drop leading and trailing whitespace. -/
def pyStrip (l : List Char) : List Char :=
  ((l.dropWhile pyIsSpace).reverse.dropWhile pyIsSpace).reverse

/-- Python `text.split('\n')`: split on every newline character,
keeping empty pieces (so the empty text yields one empty line). -/
def splitLines : List Char → List (List Char)
  | [] => [[]]
  | c :: rest =>
    if c = '\n' then [] :: splitLines rest
    else
      match splitLines rest with
      | s :: ss => (c :: s) :: ss
      | [] => [[c]]

/-- A row of a table candidate: an ordered list of cell strings. -/
abbrev Row := List (List Char)

/-- A table candidate: an ordered list of rows. -/
abbrev Table := List Row

/-- Close the current cell, as the list comprehension
`[cell.strip() for cell in cells if cell.strip()]` in `app.py` does:
the cell is stripped and appended only if nonempty after stripping. -/
def closeCell (acc : List (List Char)) (cur : List Char) : List (List Char) :=
  if pyStrip cur = [] then acc else acc ++ [pyStrip cur]

/-- A maximal whitespace run acts as a cell separator for the pattern
of two-or-more whitespace characters or a tab (as in app.py line 133):
the run must have length at least 2 or contain a tab character. -/
def sepRun (r : List Char) : Bool :=
  2 ≤ r.length || r.contains '\t'

/-- State of the cell splitter: finished cells, current cell text,
and the pending whitespace run whose separator status is undecided. -/
structure SplitSt where
  cells : List (List Char)
  cur : List Char
  pend : List Char
deriving DecidableEq

/-- One character of the cell-splitting scan. -/
def splitStep (st : SplitSt) (c : Char) : SplitSt :=
  if pyIsSpace c then { st with pend := st.pend ++ [c] }
  else if sepRun st.pend then
    { cells := closeCell st.cells st.cur, cur := [c], pend := [] }
  else
    { st with cur := st.cur ++ st.pend ++ [c], pend := [] }

/-- `re.split` on runs of two-or-more whitespace characters or a tab,
followed by stripping each piece and dropping the empty ones
(app.py lines 133-134). -/
def splitCells (line : List Char) : List (List Char) :=
  let st := line.foldl splitStep ⟨[], [], []⟩
  closeCell st.cells st.cur

/-- `re.search` for two consecutive whitespace characters
(the two-or-more-whitespace pattern of app.py line 131). -/
def hasWsRun2 : List Char → Bool
  | a :: b :: rest => (pyIsSpace a && pyIsSpace b) || hasWsRun2 (b :: rest)
  | _ => false

/-- The table-likeness test of app.py line 131: the line contains a run
of two-or-more whitespace characters or a tab character. -/
def tableLike (line : List Char) : Bool :=
  hasWsRun2 line || line.contains '\t'

/-- The close rule of app.py lines 139-142, 144-147 and 149-151: the
current candidate is emitted only when it has accumulated at least 2
rows, and is cleared. -/
def closeTable (st : List Table × Table) : List Table × Table :=
  ((if 2 ≤ st.2.length then st.1 ++ [st.2] else st.1), [])

/-- One loop iteration of `detect_table_patterns_in_text`
(app.py lines 124-147).  State: emitted tables and the current table.
Note the blank-line branch leaves the state untouched (`continue`). -/
def detectStep (st : List Table × Table) (rawLine : List Char) :
    List Table × Table :=
  let line := pyStrip rawLine
  if line = [] then st
  else if tableLike line then
    let cells := splitCells line
    if 2 ≤ cells.length then (st.1, st.2 ++ [cells])
    else closeTable st
  else closeTable st

/-- `detect_table_patterns_in_text` (app.py lines 117-156): run the
loop over the lines of the stripped text, then flush the trailing
candidate through the close rule. -/
def detect_table_patterns_in_text (text : List Char) : List Table :=
  (closeTable ((splitLines (pyStrip text)).foldl detectStep ([], []))).1

/-! ### Line classifier (`extract_structured_data_from_text`, app.py 159-191) -/

/-- Python `str.isupper()` over ASCII: at least one cased character and
no lowercase character (app.py line 176). -/
def pyIsUpper (l : List Char) : Bool :=
  l.any (fun c => c.isUpper || c.isLower) && l.all (fun c => !c.isLower)

/-- `line.startswith(('Chapter', 'Section', 'Part'))` (app.py line 176). -/
def startsChapterSectionPart (l : List Char) : Bool :=
  "Chapter".toList.isPrefixOf l || "Section".toList.isPrefixOf l ||
    "Part".toList.isPrefixOf l

/-- The header test of app.py line 176: length below 100 and
(`isupper` or one of the three literal sentence starters). -/
def headerCond (line : List Char) : Bool :=
  line.length < 100 && (pyIsUpper line || startsChapterSectionPart line)

/-- Character class of the list-item pattern: bullet glyphs and digits
(app.py line 180). -/
def listGlyph (c : Char) : Bool :=
  c = '•' || c = '-' || c = '*' || c.isDigit

/-- After the leading glyph run, the list-item pattern needs an optional
period followed by a whitespace character. -/
def listAfterRun : List Char → Bool
  | '.' :: rest =>
    match rest with
    | c :: _ => pyIsSpace c
    | [] => false
  | c :: _ => pyIsSpace c
  | [] => false

/-- `re.match` of the anchored list-item pattern of app.py line 180:
one or more bullet glyphs or digits, an optional period, then a
whitespace character.  Since the glyph class, the period and whitespace
are pairwise disjoint, the backtracking match succeeds exactly when the
maximal glyph run is nonempty and `listAfterRun` accepts the rest. -/
def listItemMatch (l : List Char) : Bool :=
  !(l.takeWhile listGlyph).isEmpty && listAfterRun (l.dropWhile listGlyph)

/-- Consume exactly `n` digits, returning the rest of the input. -/
def takeDigits : Nat → List Char → Option (List Char)
  | 0, rest => some rest
  | _ + 1, [] => none
  | n + 1, c :: rest => if c.isDigit then takeDigits n rest else none

/-- Consume a slash character. -/
def afterSlash : List Char → Option (List Char)
  | '/' :: rest => some rest
  | _ => none

/-- The date alternative of app.py line 184 matched at the head of the
input: 1-2 digits, a slash, 1-2 digits, a slash, 2-4 digits.  The
existential choice over group widths models regex backtracking. -/
def dateAt (l : List Char) : Bool :=
  [1, 2].any fun a =>
    match takeDigits a l with
    | none => false
    | some r1 =>
      match afterSlash r1 with
      | none => false
      | some r2 =>
        [1, 2].any fun b =>
          match takeDigits b r2 with
          | none => false
          | some r3 =>
            match afterSlash r3 with
            | none => false
            | some r4 => [2, 3, 4].any fun c => (takeDigits c r4).isSome

/-- The currency alternative of app.py line 184 matched at the head of
the input: a dollar sign, then one or more digit-or-comma characters,
then an optional period and any run of digits.  The optional tail parts
always succeed, so a match needs exactly a dollar sign followed by one
digit or comma. -/
def currencyAt : List Char → Bool
  | '$' :: c :: _ => c.isDigit || c = ','
  | _ => false

/-- `re.search` of the financial pattern of app.py line 184: some
suffix of the line starts with a currency amount or a date. -/
def financialMatch (l : List Char) : Bool :=
  l.tails.any fun t => currencyAt t || dateAt t

/-- The label a line can receive from the rule chain. -/
inductive Classification where
  | Header
  | ListItem
  | Financial
  | Paragraph
  | Unclassified
deriving DecidableEq

/-- The rule chain of app.py lines 176-189 as a pure classifier over an
already-stripped line: header, then list item, then financial, then
paragraph for lines longer than 50 characters, else unclassified. -/
def classifyLine (line : List Char) : Classification :=
  if headerCond line then .Header
  else if listItemMatch line then .ListItem
  else if financialMatch line then .Financial
  else if 50 < line.length then .Paragraph
  else .Unclassified

/-- The four bucket lists built by `extract_structured_data_from_text`. -/
structure StructuredData where
  headers : List (List Char)
  lists : List (List Char)
  paragraphs : List (List Char)
  financial_data : List (List Char)
deriving DecidableEq

/-- One loop iteration of `extract_structured_data_from_text`
(app.py lines 170-189): strip the line, skip it when empty, else append
it to the bucket of the first matching rule. -/
def classifyStep (sd : StructuredData) (rawLine : List Char) : StructuredData :=
  let line := pyStrip rawLine
  if line = [] then sd
  else if headerCond line then { sd with headers := sd.headers ++ [line] }
  else if listItemMatch line then { sd with lists := sd.lists ++ [line] }
  else if financialMatch line then
    { sd with financial_data := sd.financial_data ++ [line] }
  else if 50 < line.length then
    { sd with paragraphs := sd.paragraphs ++ [line] }
  else sd

/-- `extract_structured_data_from_text` (app.py lines 159-191). -/
def extract_structured_data_from_text (text : List Char) : StructuredData :=
  (splitLines (pyStrip text)).foldl classifyStep ⟨[], [], [], []⟩

/-! ### Per-page OCR loop (`process_pdf_to_structured_data`, app.py 337-355) -/

/-- `structured_text_data[key].extend(page_structured_data[key])` for
the four buckets (app.py lines 351-352). -/
def mergeBuckets (a b : StructuredData) : StructuredData :=
  ⟨a.headers ++ b.headers, a.lists ++ b.lists,
    a.paragraphs ++ b.paragraphs, a.financial_data ++ b.financial_data⟩

/-- One iteration of the per-page OCR loop of app.py lines 337-352:
extend the OCR table list with the page's detected tables and merge the
page's buckets into the accumulated buckets. -/
def processPagesStep (acc : List Table × StructuredData) (page : List Char) :
    List Table × StructuredData :=
  (acc.1 ++ detect_table_patterns_in_text page,
    mergeBuckets acc.2 (extract_structured_data_from_text page))

/-- The whole per-page OCR loop of `process_pdf_to_structured_data`
over the ordered list of page texts. -/
def process_pages_ocr (pages : List (List Char)) :
    List Table × StructuredData :=
  pages.foldl processPagesStep ([], ⟨[], [], [], []⟩)

/-! ### Table consolidation (`create_consolidated_excel`, app.py 204-231) -/

/-- A pandas cell: `none` models NaN, `some s` a string value. -/
abbrev PCell := Option (List Char)

/-- `pd.isna` on a cell. -/
def isna : PCell → Bool
  | none => true
  | some _ => false

/-- `DataFrame.empty`: no rows, or no columns (every row empty). -/
def dfEmpty (d : List (List PCell)) : Bool :=
  d.isEmpty || d.all List.isEmpty

/-- `pd.DataFrame(table)` on an OCR table: rows are padded with NaN to
the maximal row length. -/
def toDF (t : Table) : List (List PCell) :=
  let m := (t.map List.length).foldr Nat.max 0
  t.map fun r => r.map some ++ List.replicate (m - r.length) none

/-- The row loop of app.py lines 226-231: a row is written to the sheet
unless every cell is NA (`if not all(pd.isna(cell) for cell in row_data)`). -/
def writeTableRows (d : List (List PCell)) : List (List PCell) :=
  d.filter fun r => !(r.all isna)

/-- The `all_tables` list of app.py lines 205-220: tabula tables that
are not empty, then camelot tables that are not empty, then OCR tables
that are nonempty lists, converted to data frames. -/
def consolidatedTables (tabula camelot : List (List (List PCell)))
    (ocr : List Table) : List (List (List PCell)) :=
  (tabula.filter fun d => !dfEmpty d) ++ (camelot.filter fun d => !dfEmpty d)
    ++ ((ocr.filter fun t => !t.isEmpty).map toDF)

/-- The rows written to the main sheet for the consolidated tables
(app.py lines 223-231), in order. -/
def consolidatedRows (tabula camelot : List (List (List PCell)))
    (ocr : List Table) : List (List PCell) :=
  ((consolidatedTables tabula camelot ocr).map writeTableRows).flatten

/-! ### Definitions following the specification text, for comparison -/

/-- The Table Pattern Detector step as the specification words it
(spec §4.2): a blank line closes the current candidate (emitting it when
it has at least 2 rows) and clears it; otherwise the line is split into
cells and appended when it has at least 2 cells, else the candidate is
closed and cleared. -/
def specDetectStep (st : List Table × Table) (rawLine : List Char) :
    List Table × Table :=
  let line := pyStrip rawLine
  if line = [] then closeTable st
  else
    let cells := splitCells line
    if 2 ≤ cells.length then (st.1, st.2 ++ [cells])
    else closeTable st

/-- The Table Pattern Detector as the specification words it, with the
trailing candidate flushed by the close rule after the loop. -/
def specDetectTables (text : List Char) : List Table :=
  (closeTable ((splitLines (pyStrip text)).foldl specDetectStep ([], []))).1

/-- ASCII punctuation characters. -/
def asciiPunct (c : Char) : Bool :=
  (33 ≤ c.toNat && c.toNat ≤ 47) || (58 ≤ c.toNat && c.toNat ≤ 64) ||
    (91 ≤ c.toNat && c.toNat ≤ 96) || (123 ≤ c.toNat && c.toNat ≤ 126)

/-- The header character condition as the claim words it: the entire
line consists only of upper-case letters, punctuation, and digits. -/
def specUpperPunctDigit (l : List Char) : Bool :=
  l.all fun c => c.isUpper || c.isDigit || asciiPunct c

/-- The header rule as the claim words it: length below 100 and (only
upper-case letters, punctuation and digits, or one of the three literal
sentence starters). -/
def specHeaderCond (l : List Char) : Bool :=
  l.length < 100 && (specUpperPunctDigit l || startsChapterSectionPart l)

/-- A currency amount as the claim words it, matched at the head of the
input: a dollar sign followed by digits (with optional thousands
separators and an optional two-decimal fraction).  Under substring
search the optional groups impose no extra constraint, so the line
contains such an amount exactly when a dollar sign immediately followed
by a digit occurs in it. -/
def specCurrencyAt : List Char → Bool
  | '$' :: c :: _ => c.isDigit
  | _ => false

/-- The financial rule as the claim words it: the line contains a
currency amount (dollar sign followed by digits) or a date
(1-2 digits, slash, 1-2 digits, slash, 2-4 digits). -/
def specFinancialMatch (l : List Char) : Bool :=
  l.tails.any fun t => specCurrencyAt t || dateAt t

/-- Appending a line to the bucket named by a classification label;
an unclassified line is dropped. -/
def appendBucket (sd : StructuredData) (c : Classification)
    (line : List Char) : StructuredData :=
  match c with
  | .Header => { sd with headers := sd.headers ++ [line] }
  | .ListItem => { sd with lists := sd.lists ++ [line] }
  | .Financial => { sd with financial_data := sd.financial_data ++ [line] }
  | .Paragraph => { sd with paragraphs := sd.paragraphs ++ [line] }
  | .Unclassified => sd

/-! ### Helper lemmas on stripping -/

/-- Dropping a prefix of `p`-satisfying elements twice is the same as
doing it once. -/
theorem dropWhile_drop_again (p : Char → Bool) (l : List Char) :
    (l.dropWhile p).dropWhile p = l.dropWhile p :=
  List.dropWhile_idempotent p l

/-- A prefix of a list whose head does not satisfy `p` is itself fixed
by `dropWhile p`. -/
theorem dropWhile_eq_self_of_prefix (p : Char → Bool) {l t : List Char}
    (hl : l.dropWhile p = l) (ht : t <+: l) : t.dropWhile p = t := by
  cases t with
  | nil => rfl
  | cons a t' =>
    rcases ht with ⟨r, rfl⟩
    have hpa : ¬ p a = true := by
      intro hpa
      rw [List.cons_append, List.dropWhile_cons_of_pos hpa] at hl
      have hle := (List.dropWhile_suffix (l := t' ++ r) p).length_le
      rw [hl] at hle
      simp [List.length_append] at hle
    exact List.dropWhile_cons_of_neg hpa

/-- If a list and its reverse are both fixed by `dropWhile`, it is
fixed by `pyStrip`. -/
theorem pyStrip_eq_self {s : List Char}
    (h1 : s.dropWhile pyIsSpace = s)
    (h2 : s.reverse.dropWhile pyIsSpace = s.reverse) : pyStrip s = s := by
  unfold pyStrip
  rw [h1, h2, List.reverse_reverse]

/-- The reverse of a stripped list is the reverse of the
leading-stripped list with its leading whitespace dropped. -/
theorem pyStrip_reverse (l : List Char) :
    (pyStrip l).reverse = (l.dropWhile pyIsSpace).reverse.dropWhile pyIsSpace := by
  unfold pyStrip
  rw [List.reverse_reverse]

/-- The result of `pyStrip` starts with a non-whitespace character. -/
theorem pyStrip_dropWhile (l : List Char) :
    (pyStrip l).dropWhile pyIsSpace = pyStrip l := by
  have hpre : pyStrip l <+: l.dropWhile pyIsSpace := by
    rw [← List.reverse_suffix, pyStrip_reverse]
    exact List.dropWhile_suffix pyIsSpace
  exact dropWhile_eq_self_of_prefix pyIsSpace (dropWhile_drop_again _ _) hpre

/-- The result of `pyStrip` ends with a non-whitespace character. -/
theorem pyStrip_reverse_dropWhile (l : List Char) :
    (pyStrip l).reverse.dropWhile pyIsSpace = (pyStrip l).reverse := by
  rw [pyStrip_reverse, dropWhile_drop_again]

/-- Stripping is idempotent. -/
theorem pyStrip_idem (l : List Char) : pyStrip (pyStrip l) = pyStrip l :=
  pyStrip_eq_self (pyStrip_dropWhile l) (pyStrip_reverse_dropWhile l)

/-! ### Invariants of the table pattern detector -/

/-- A well-formed cell: nonempty and already stripped. -/
def cellOk (c : List Char) : Prop := c ≠ [] ∧ pyStrip c = c

/-- A well-formed row: at least 2 cells, all well formed. -/
def rowOk (r : Row) : Prop := 2 ≤ r.length ∧ ∀ c ∈ r, cellOk c

/-- A well-formed table candidate: at least 2 rows, all well formed. -/
def tableOk (t : Table) : Prop := 2 ≤ t.length ∧ ∀ r ∈ t, rowOk r

theorem closeCell_ok {acc : List (List Char)} {cur : List Char}
    (h : ∀ c ∈ acc, cellOk c) : ∀ c ∈ closeCell acc cur, cellOk c := by
  intro c hc
  unfold closeCell at hc
  by_cases he : pyStrip cur = []
  · rw [if_pos he] at hc
    exact h c hc
  · rw [if_neg he] at hc
    rcases List.mem_append.mp hc with hc | hc
    · exact h c hc
    · rcases List.mem_singleton.mp hc with rfl
      exact ⟨he, pyStrip_idem cur⟩

theorem splitStep_cells_ok {st : SplitSt} {a : Char}
    (h : ∀ c ∈ st.cells, cellOk c) :
    ∀ c ∈ (splitStep st a).cells, cellOk c := by
  unfold splitStep
  split_ifs with h1 h2
  · exact h
  · exact closeCell_ok h
  · exact h

theorem foldl_splitStep_cells_ok (line : List Char) :
    ∀ st : SplitSt, (∀ c ∈ st.cells, cellOk c) →
      ∀ c ∈ (line.foldl splitStep st).cells, cellOk c := by
  induction line with
  | nil => intro st h; exact h
  | cons a t ih => intro st h; exact ih _ (splitStep_cells_ok h)

/-- Every cell produced by the cell splitter is nonempty and stripped. -/
theorem splitCells_cellOk (line : List Char) :
    ∀ c ∈ splitCells line, cellOk c :=
  closeCell_ok (foldl_splitStep_cells_ok line ⟨[], [], []⟩ (by simp))

/-- Invariant carried through the detection loop: all emitted tables
are well formed and all rows of the current candidate are well formed. -/
def detInv (st : List Table × Table) : Prop :=
  (∀ t ∈ st.1, tableOk t) ∧ ∀ r ∈ st.2, rowOk r

/-- Closing the current candidate preserves the invariant. -/
theorem closeTable_inv {st : List Table × Table} (h : detInv st) :
    detInv (closeTable st) := by
  unfold closeTable
  constructor
  · intro t ht
    by_cases hl : 2 ≤ st.2.length
    · rw [if_pos hl] at ht
      rcases List.mem_append.mp ht with ht | ht
      · exact h.1 t ht
      · rcases List.mem_singleton.mp ht with rfl
        exact ⟨hl, h.2⟩
    · rw [if_neg hl] at ht
      exact h.1 t ht
  · intro r hr
    simp at hr

theorem detectStep_inv {st : List Table × Table} (line : List Char)
    (h : detInv st) : detInv (detectStep st line) := by
  simp only [detectStep]
  split_ifs with h1 h2 h3
  · exact h
  · refine ⟨h.1, fun r hr => ?_⟩
    rcases List.mem_append.mp hr with hr | hr
    · exact h.2 r hr
    · rcases List.mem_singleton.mp hr with rfl
      exact ⟨h3, splitCells_cellOk _⟩
  · exact closeTable_inv h
  · exact closeTable_inv h

theorem foldl_detectStep_inv (lines : List (List Char)) :
    ∀ st : List Table × Table, detInv st →
      detInv (lines.foldl detectStep st) := by
  induction lines with
  | nil => intro st h; exact h
  | cons a t ih => intro st h; exact ih _ (detectStep_inv a h)

/-- Every table candidate emitted by the detector is well formed. -/
theorem detect_tableOk (text : List Char) :
    ∀ t ∈ detect_table_patterns_in_text text, tableOk t := by
  have hinv : detInv ((splitLines (pyStrip text)).foldl detectStep ([], [])) :=
    foldl_detectStep_inv _ _ ⟨by simp, by simp⟩
  exact (closeTable_inv hinv).1

/-! ### Characterizations of the rule chain -/

theorem classifyLine_eq_Header {l : List Char} :
    classifyLine l = Classification.Header ↔ headerCond l = true := by
  unfold classifyLine
  split_ifs <;> simp_all

theorem classifyLine_eq_ListItem {l : List Char} :
    classifyLine l = Classification.ListItem ↔
      headerCond l = false ∧ listItemMatch l = true := by
  unfold classifyLine
  split_ifs <;> simp_all

theorem classifyLine_eq_Financial {l : List Char} :
    classifyLine l = Classification.Financial ↔
      headerCond l = false ∧ listItemMatch l = false ∧
        financialMatch l = true := by
  unfold classifyLine
  split_ifs <;> simp_all

theorem classifyLine_eq_Paragraph {l : List Char} :
    classifyLine l = Classification.Paragraph ↔
      headerCond l = false ∧ listItemMatch l = false ∧
        financialMatch l = false ∧ 50 < l.length := by
  unfold classifyLine
  split_ifs <;> simp_all

/-- The bucket loop body agrees with appending to the bucket named by
the rule chain, line by line. -/
theorem classifyStep_eq_appendBucket (sd : StructuredData)
    (rawLine : List Char) (h : pyStrip rawLine ≠ []) :
    classifyStep sd rawLine =
      appendBucket sd (classifyLine (pyStrip rawLine)) (pyStrip rawLine) := by
  simp only [classifyStep, classifyLine]
  split_ifs with h0 h1 h2 h3 h4 <;> first | rfl | exact absurd h0 h

/-! ### The per-page merge loop as a concatenation -/

theorem mergeBuckets_nil_right (a : StructuredData) :
    mergeBuckets a ⟨[], [], [], []⟩ = a := by
  cases a
  simp [mergeBuckets]

theorem mergeBuckets_assoc (a b c : StructuredData) :
    mergeBuckets (mergeBuckets a b) c = mergeBuckets a (mergeBuckets b c) := by
  cases a; cases b; cases c
  simp [mergeBuckets]

/-- The four document-level buckets that concatenating the per-page
buckets in page order would produce. -/
def pageBuckets (pages : List (List Char)) : StructuredData :=
  ⟨(pages.map fun p => (extract_structured_data_from_text p).headers).flatten,
    (pages.map fun p => (extract_structured_data_from_text p).lists).flatten,
    (pages.map fun p => (extract_structured_data_from_text p).paragraphs).flatten,
    (pages.map fun p =>
      (extract_structured_data_from_text p).financial_data).flatten⟩

theorem foldl_processPagesStep (pages : List (List Char)) :
    ∀ acc : List Table × StructuredData,
      pages.foldl processPagesStep acc =
        (acc.1 ++ (pages.map detect_table_patterns_in_text).flatten,
          mergeBuckets acc.2 (pageBuckets pages)) := by
  induction pages with
  | nil =>
    intro acc
    simp [pageBuckets, mergeBuckets_nil_right]
  | cons p ps ih =>
    intro acc
    rw [List.foldl_cons, ih]
    simp [processPagesStep, pageBuckets, mergeBuckets, List.append_assoc]

/-! ### The consolidation filter as one contribution per candidate -/

/-- What a native (tabula or camelot) table contributes to the main
sheet: nothing when the data frame is empty, else its rows that are not
entirely NA. -/
def natContrib (d : List (List PCell)) : List (List PCell) :=
  if dfEmpty d then [] else writeTableRows d

/-- What an OCR table candidate contributes to the main sheet: nothing
when it has no rows, else the rows of its data frame that are not
entirely NA. -/
def ocrContrib (t : Table) : List (List PCell) :=
  if t.isEmpty then [] else writeTableRows (toDF t)

theorem filter_map_flatten {α β : Type} (p : α → Bool) (f : α → List β)
    (l : List α) :
    ((l.filter p).map f).flatten =
      (l.map fun a => if p a then f a else []).flatten := by
  induction l with
  | nil => rfl
  | cons a t ih => cases h : p a <;> simp [h, ih]

theorem mergeBuckets_nil_left (a : StructuredData) :
    mergeBuckets ⟨[], [], [], []⟩ a = a := by
  cases a
  simp [mergeBuckets]

/-! ### Concrete sample inputs -/

/-- The bullet line of spec §8 scenario 2. -/
def bulletLine : List Char := "• Customer satisfaction rate: 94.2%".toList

/-- The long prose line of spec §8 scenario 3 (84 characters). -/
def revenueLine : List Char :=
  "Revenue increased substantially across all regions this quarter due to strong demand".toList

/-- The tabular page text of spec §8 scenario 4. -/
def sampleText : List Char :=
  "Month    Revenue    Expenses\nJanuary  125000     85000\nFebruary 138000     92000".toList

def sampleRowA : Row := ["Month".toList, "Revenue".toList, "Expenses".toList]

def sampleRowB : Row := ["January".toList, "125000".toList, "85000".toList]

def sampleRowC : Row := ["February 138000".toList, "92000".toList]

/-- The single table candidate the detector finds in `sampleText`. -/
def sampleTable : Table := [sampleRowA, sampleRowB, sampleRowC]

/-- An OCR table candidate of two rows of two empty-string cells. -/
def blankOcrTable : Table := [[[], []], [[], []]]

/-! ### The claims -/

/-- C1 (amended): in `detect_table_patterns_in_text` a blank line is
skipped without closing or clearing the current candidate — the loop
state is unchanged.  A candidate is closed only by a non-blank
non-tabular line or at end of input, so an emitted TableCandidate may
contain rows coming from lines separated by a blank line. -/
theorem detect_blank_line_skips (st : List Table × Table)
    (rawLine : List Char) (h : pyStrip rawLine = []) :
    detectStep st rawLine = st := by
  simp only [detectStep]
  rw [if_pos h]

/-- Witness for `detect_blank_line_skips` at a concrete state and a
whitespace-only line. -/
theorem detect_blank_line_skips_witness :
    detectStep ([], [[['a'], ['b']]]) ("  ".toList) = ([], [[['a'], ['b']]]) :=
  detect_blank_line_skips ([], [[['a'], ['b']]]) ("  ".toList) (by decide)

/-- C1 counterexample: on the page text `"a  b\n\nc  d"` the detector
as the spec words it (a blank line closes the one-row candidate,
discarding it) returns no candidate, while the code returns one
candidate whose two rows come from lines separated by a blank line. -/
theorem detect_blank_line_counterexample :
    specDetectTables ("a  b\n\nc  d".toList) = [] ∧
    detect_table_patterns_in_text ("a  b\n\nc  d".toList) =
      [[[['a'], ['b']], [['c'], ['d']]]] := by decide

/-- C2: every table candidate returned by
`detect_table_patterns_in_text` has at least 2 rows, and every one of
its rows has at least 2 cells. -/
theorem detect_min_size (text : List Char) (t : Table)
    (ht : t ∈ detect_table_patterns_in_text text) :
    2 ≤ t.length ∧ ∀ r ∈ t, 2 ≤ r.length :=
  ⟨(detect_tableOk text t ht).1, fun r hr => ((detect_tableOk text t ht).2 r hr).1⟩

/-- Witness for `detect_min_size` at the scenario-4 page text. -/
theorem detect_min_size_witness :
    sampleTable ∈ detect_table_patterns_in_text sampleText ∧
      2 ≤ sampleTable.length :=
  ⟨by decide, (detect_min_size sampleText sampleTable (by decide)).1⟩

/-- C3: each nonempty stripped line is appended to exactly the bucket
named by the first matching rule of the chain (header, list item,
financial, paragraph, else dropped); in particular the bullet line of
scenario 2 goes to the list bucket even though it contains a
percentage. -/
theorem classify_exclusive :
    (∀ (sd : StructuredData) (rawLine : List Char), pyStrip rawLine ≠ [] →
      classifyStep sd rawLine =
        appendBucket sd (classifyLine (pyStrip rawLine)) (pyStrip rawLine)) ∧
    classifyLine (pyStrip bulletLine) = Classification.ListItem :=
  ⟨classifyStep_eq_appendBucket, by decide⟩

/-- Witness for `classify_exclusive` at the bullet line. -/
theorem classify_exclusive_witness :
    classifyStep ⟨[], [], [], []⟩ bulletLine =
      appendBucket ⟨[], [], [], []⟩ (classifyLine (pyStrip bulletLine))
        (pyStrip bulletLine) :=
  classify_exclusive.1 ⟨[], [], [], []⟩ bulletLine (by decide)

/-- C4 counterexample: the line `"123"` consists only of digits, so the
claim's header condition holds (length below 100, only upper-case
letters, punctuation and digits), yet the classifier does not label it
Header, because Python `isupper` requires at least one cased
character. -/
theorem header_rule_counterexample :
    specHeaderCond ("123".toList) = true ∧
    classifyLine ("123".toList) ≠ Classification.Header := by decide

/-- C4 (amended): a line is classified Header exactly when its length
is below 100 and either it has at least one letter and no lowercase
letter (Python `isupper`), or it starts with one of the literal
prefixes Chapter, Section, Part; the line `"ALL CAPS HEADER"` is
classified Header. -/
theorem header_rule_amended :
    (∀ l : List Char, classifyLine l = Classification.Header ↔
      l.length < 100 ∧
        (pyIsUpper l = true ∨ startsChapterSectionPart l = true)) ∧
    classifyLine ("ALL CAPS HEADER".toList) = Classification.Header := by
  constructor
  · intro l
    rw [classifyLine_eq_Header]
    unfold headerCond
    simp [Bool.and_eq_true, Bool.or_eq_true, decide_eq_true_eq]
  · decide

/-- C5 counterexample: the line `"$,"` is classified Financial by the
code (the regex accepts a dollar sign followed by a comma), but it
contains no currency amount in the claim's sense (a dollar sign
followed by digits) and no date. -/
theorem financial_rule_counterexample :
    classifyLine ("$,".toList) = Classification.Financial ∧
    specFinancialMatch ("$,".toList) = false := by decide

/-- C5 (amended): a nonempty stripped line not classified Header or
ListItem is classified Financial exactly when it contains a dollar sign
followed by a digit-or-comma character (optionally continued by digits,
commas, a period and decimals) or a date of 1-2 digits, slash,
1-2 digits, slash, 2-4 digits. -/
theorem financial_rule_amended (l : List Char) (h0 : pyStrip l = l)
    (hne : l ≠ []) (hH : classifyLine l ≠ Classification.Header)
    (hL : classifyLine l ≠ Classification.ListItem) :
    classifyLine l = Classification.Financial ↔ financialMatch l = true := by
  have hh : headerCond l = false := by
    cases hcb : headerCond l
    · rfl
    · exact absurd (classifyLine_eq_Header.mpr hcb) hH
  have hli : listItemMatch l = false := by
    cases hlb : listItemMatch l
    · rfl
    · exact absurd (classifyLine_eq_ListItem.mpr ⟨hh, hlb⟩) hL
  rw [classifyLine_eq_Financial]
  simp [hh, hli]

/-- Witness for `financial_rule_amended` at the line `"$5"`. -/
theorem financial_rule_amended_witness :
    classifyLine ("$5".toList) = Classification.Financial ↔
      financialMatch ("$5".toList) = true :=
  financial_rule_amended ("$5".toList) (by decide) (by decide) (by decide)
    (by decide)

/-- C6: a nonempty stripped line matching none of the header, list-item
and financial rules is classified Paragraph exactly when its length
exceeds 50, and otherwise the bucket loop drops it (no bucket of the
result changes). -/
theorem paragraph_rule (sd : StructuredData) (l : List Char)
    (h0 : pyStrip l = l) (hne : l ≠ [])
    (hh : headerCond l = false) (hli : listItemMatch l = false)
    (hf : financialMatch l = false) :
    (classifyLine l = Classification.Paragraph ↔ 50 < l.length) ∧
    (l.length ≤ 50 → classifyStep sd l = sd) := by
  constructor
  · rw [classifyLine_eq_Paragraph]
    simp [hh, hli, hf]
  · intro hlen
    simp only [classifyStep, h0]
    rw [if_neg hne, if_neg (by simp [hh]), if_neg (by simp [hli]),
      if_neg (by simp [hf]), if_neg (by omega)]

/-- Witness for `paragraph_rule` at the scenario-3 prose line. -/
theorem paragraph_rule_witness :
    (classifyLine revenueLine = Classification.Paragraph ↔
      50 < revenueLine.length) ∧
    (revenueLine.length ≤ 50 →
      classifyStep ⟨[], [], [], []⟩ revenueLine = ⟨[], [], [], []⟩) :=
  paragraph_rule ⟨[], [], [], []⟩ revenueLine (by decide) (by decide)
    (by decide) (by decide) (by decide)

/-- C7: the per-page OCR loop concatenates, in page order, the per-page
table-candidate lists and the four per-page buckets — no reordering,
deduplication or sorting; e.g. merging a page with headers
`["Executive Summary"]` then one with `["Conclusion"]` yields exactly
that header order. -/
theorem order_preservation :
    (∀ pages : List (List Char),
      (process_pages_ocr pages).1 =
        (pages.map detect_table_patterns_in_text).flatten ∧
      (process_pages_ocr pages).2 = pageBuckets pages) ∧
    (mergeBuckets (mergeBuckets ⟨[], [], [], []⟩
          ⟨["Executive Summary".toList], [], [], []⟩)
        ⟨["Conclusion".toList], [], [], []⟩).headers =
      ["Executive Summary".toList, "Conclusion".toList] := by
  constructor
  · intro pages
    unfold process_pages_ocr
    rw [foldl_processPagesStep]
    exact ⟨by simp, mergeBuckets_nil_left _⟩
  · rfl

/-- C8: structuring the empty page text yields four empty buckets and
the detector yields no table candidate — no failure, just emptiness. -/
theorem empty_page_degrades :
    extract_structured_data_from_text ("".toList) = ⟨[], [], [], []⟩ ∧
    detect_table_patterns_in_text ("".toList) = [] := by decide

/-- C9 counterexample: an OCR table candidate whose every cell is the
empty string is not dropped by the consolidation stage — both of its
rows are written to the main sheet, because `pd.isna` is false on a
string cell. -/
theorem consolidation_filter_counterexample :
    blankOcrTable.all (fun r => r.all fun c => (pyStrip c).isEmpty) = true ∧
    consolidatedRows [] [] [blankOcrTable] =
      [[some [], some []], [some [], some []]] := by decide

/-- C9 (amended): the consolidation stage drops native tables whose
data frame is empty (no rows or no columns) and OCR candidates with no
rows, and within every kept table it skips exactly the rows whose cells
are all NA; each candidate contributes its remaining rows independently
and in order — no other filtering, sorting, or deduplication. -/
theorem consolidation_filter_amended
    (tabula camelot : List (List (List PCell))) (ocr : List Table) :
    consolidatedRows tabula camelot ocr =
      (tabula.map natContrib).flatten ++ (camelot.map natContrib).flatten ++
        (ocr.map ocrContrib).flatten := by
  unfold consolidatedRows consolidatedTables
  rw [List.map_append, List.map_append, List.flatten_append,
    List.flatten_append]
  have hfun1 : (fun d => if (!dfEmpty d) = true then writeTableRows d else [])
      = natContrib := by
    funext d
    cases h : dfEmpty d <;> simp [natContrib, h]
  have hfun2 : (fun t => if (!List.isEmpty t) = true
        then (writeTableRows ∘ toDF) t else []) = ocrContrib := by
    funext t
    cases h : t.isEmpty <;> simp [ocrContrib, h, Function.comp]
  have hnat : ∀ L : List (List (List PCell)),
      ((L.filter fun d => !dfEmpty d).map writeTableRows).flatten =
        (L.map natContrib).flatten := by
    intro L
    rw [filter_map_flatten, hfun1]
  have hocr :
      (((ocr.filter fun t => !t.isEmpty).map toDF).map writeTableRows).flatten
        = (ocr.map ocrContrib).flatten := by
    rw [List.map_map, filter_map_flatten, hfun2]
  rw [hnat tabula, hnat camelot, hocr]

/-- C10: every cell of every table candidate returned by
`detect_table_patterns_in_text` is a nonempty string with no leading or
trailing whitespace. -/
theorem detect_cells_trimmed (text : List Char) (t : Table) (r : Row)
    (c : List Char) (ht : t ∈ detect_table_patterns_in_text text)
    (hr : r ∈ t) (hc : c ∈ r) : c ≠ [] ∧ pyStrip c = c :=
  ((detect_tableOk text t ht).2 r hr).2 c hc

/-- Witness for `detect_cells_trimmed` at a concrete cell of the
scenario-4 table. -/
theorem detect_cells_trimmed_witness :
    "Month".toList ≠ [] ∧ pyStrip ("Month".toList) = "Month".toList :=
  detect_cells_trimmed sampleText sampleTable sampleRowA ("Month".toList)
    (by decide) (by decide) (by decide)

end PdfExcel
